import Mathlib

/-!
Verification of the `orbitControl` camera controller of this p5.js fork.

The repository holds two revisions of `p5.prototype.orbitControl`:

* `src/src/webgl/interaction.js` — shift+drag pans, plain drag rotates
  (no zoom, no radius clamp);
* `src/unnamed/part_000` — the scroll-enabled revision: the update is gated
  on a wheel-delta change or a pressed button, the right button pans, the
  left button rotates, wheel activity zooms, and the radius is clamped to
  `[50, 2000]`.

Both are shallowly embedded below over real numbers: camera state is a pair
of 3-vectors (`eye`, `center`), an input sample carries the pointer, button,
modifier and wheel fields the source reads, and each JavaScript statement is
translated into a corresponding Lean `let`/`if`.  `Math.atan2 y x` is
embedded as `Complex.arg ⟨x, y⟩`, which agrees with the JavaScript function
on all real inputs (including `atan2 0 0 = 0`).  A second, deliberately
partial embedding (`JSNum := Option ℝ`) is used for the one claim whose
truth hinges on non-finite IEEE values: there `none` marks a NaN/infinite
result, so that the `0/0` produced when `eye = center` can be traced
through the rotate branch.
-/

namespace P5Orbit

/-- A 3-component world-space vector, as the `(x, y, z)` triples of the source. -/
@[ext]
structure Vec3 where
  x : ℝ
  y : ℝ
  z : ℝ

/-- Camera state owned by the renderer: `eye` is `cameraX/Y/Z`, `center` is
`cameraCenterX/Y/Z`. -/
@[ext]
structure CameraState where
  eye : Vec3
  center : Vec3

/-- The pressed-button indicator read by the scroll-enabled revision. -/
inductive MouseButton
  | none
  | left
  | right
deriving DecidableEq

/-- One per-frame input sample: current/previous pointer coordinates, the
pressed-button state, the shift-modifier flag (read by `interaction.js`) and
the current/previous wheel-delta accumulator (read by the scroll-enabled
revision). -/
structure Input where
  mouseX : ℝ
  pmouseX : ℝ
  mouseY : ℝ
  pmouseY : ℝ
  mouseIsPressed : Bool
  mouseButton : MouseButton
  shiftDown : Bool
  mouseWheelDeltaY : ℝ
  pmouseWheelDeltaY : ℝ

/-- Result of one `orbitControl` call: the new camera state together with
whether `this.camera(...)` (the view-update side effect) was invoked. -/
@[ext]
structure Result where
  state : CameraState
  cameraCalled : Bool

/-- Componentwise difference `a - b`, as the source's `camX - centerX`
etc. -/
def vsub (a b : Vec3) : Vec3 :=
  ⟨a.x - b.x, a.y - b.y, a.z - b.z⟩

/-- Componentwise sum, as the source's `_x + centerX` etc. -/
def vadd (v c : Vec3) : Vec3 :=
  ⟨v.x + c.x, v.y + c.y, v.z + c.z⟩

/-- Embedding of JavaScript `Math.atan2 y x`: the argument of the complex
number with real part `x` and imaginary part `y`.  `Complex.arg` agrees with
`Math.atan2` on every pair of reals, including `atan2 0 0 = 0`. -/
noncomputable def atan2 (y x : ℝ) : ℝ :=
  Complex.arg ⟨x, y⟩

/-- `camRadius = Math.sqrt(diffX*diffX + diffY*diffY + diffZ*diffZ)` of the
source, on a difference vector. -/
noncomputable def radiusOf (d : Vec3) : ℝ :=
  Real.sqrt (d.x * d.x + d.y * d.y + d.z * d.z)

/-- `camTheta = Math.atan2(diffX, diffZ)` of the source (equatorial angle). -/
noncomputable def thetaOf (d : Vec3) : ℝ :=
  atan2 d.x d.z

/-- `camPhi = Math.acos(Math.max(-1, Math.min(1, diffY / camRadius)))` of the
source (polar angle). -/
noncomputable def phiOf (d : Vec3) : ℝ :=
  Real.arccos (max (-1) (min 1 (d.y / radiusOf d)))

/-- The polar-angle clamp of both revisions:
`if (camPhi > Math.PI) camPhi = Math.PI; else if (camPhi <= 0) camPhi = 0.001`. -/
noncomputable def clampPhi (phi : ℝ) : ℝ :=
  if phi > Real.pi then Real.pi
  else if phi ≤ 0 then 0.001
  else phi

/-- The radius clamp of the scroll-enabled revision:
`if (camRadius > 2000) camRadius = 2000; else if (camRadius < 50) camRadius = 50`. -/
noncomputable def clampRadius (r : ℝ) : ℝ :=
  if r > 2000 then 2000
  else if r < 50 then 50
  else r

/-- The wheel-zoom step of the scroll-enabled revision, applied when the
wheel-delta accumulator changed:
`if (mouseWheelDeltaY > 1) camRadius += 10; else if (mouseWheelDeltaY < -1) camRadius -= 10`.
Note that it tests the current accumulator value against `±1`, not the
direction of its change. -/
noncomputable def zoomStep (mouseWheelDeltaY r : ℝ) : ℝ :=
  if mouseWheelDeltaY > 1 then r + 10
  else if mouseWheelDeltaY < -1 then r - 10
  else r

/-- Reconversion to Cartesian coordinates of both revisions:
`sinPhiRadius = sin(phi) * radius; x = sinPhiRadius * sin(theta);
y = cos(phi) * radius; z = sinPhiRadius * cos(theta)`. -/
noncomputable def sphToCart (r theta phi : ℝ) : Vec3 :=
  let sinPhiRadius := Real.sin phi * r
  ⟨sinPhiRadius * Real.sin theta, Real.cos phi * r, sinPhiRadius * Real.cos theta⟩

/-- The shift-drag pan branch of `interaction.js` (lines 61–110): builds the
two vectors perpendicular to the view vector with `worldUp = (0,1,0)`,
normalizes each over all three components, and moves `eye` and `center` by
the same offset along X and Z; the Y updates are commented out in the
source. -/
noncomputable def pan1 (sX sY : ℝ) (inp : Input) (cam : CameraState) : CameraState :=
  let z0 := cam.eye.x - cam.center.x
  let z1 := cam.eye.y - cam.center.y
  let z2 := cam.eye.z - cam.center.z
  -- x = y cross z with y = (0, 1, 0)
  let x0 := 1 * z2 - 0 * z1
  let x1 := -(0 : ℝ) * z2 + 0 * z0
  let x2 := 0 * z1 - 1 * z0
  -- recompute y = z cross x
  let w0 := z1 * x2 - z2 * x1
  let w1 := -z0 * x2 + z2 * x0
  let w2 := z0 * x1 - z1 * x0
  let xmag := Real.sqrt (x0 * x0 + x1 * x1 + x2 * x2)
  let nx0 := if xmag ≠ 0 then x0 / xmag else x0
  let nx2 := if xmag ≠ 0 then x2 / xmag else x2
  let ymag := Real.sqrt (w0 * w0 + w1 * w1 + w2 * w2)
  let nw0 := if ymag ≠ 0 then w0 / ymag else w0
  let nw2 := if ymag ≠ 0 then w2 / ymag else w2
  let deltaX := -1 * sX * (inp.mouseX - inp.pmouseX)
  let deltaY := -1 * sY * (inp.mouseY - inp.pmouseY)
  ⟨⟨cam.eye.x + (deltaX * nx0 + deltaY * nw0), cam.eye.y,
    cam.eye.z + (deltaX * nx2 + deltaY * nw2)⟩,
   ⟨cam.center.x + (deltaX * nx0 + deltaY * nw0), cam.center.y,
    cam.center.z + (deltaX * nx2 + deltaY * nw2)⟩⟩

/-- The right-button pan branch of the scroll-enabled revision
(`part_000`, lines 70–126): identical to `pan1` except that the
normalization magnitudes use only the X/Z portions of the vectors. -/
noncomputable def pan2 (sX sY : ℝ) (inp : Input) (cam : CameraState) : CameraState :=
  let z0 := cam.eye.x - cam.center.x
  let z1 := cam.eye.y - cam.center.y
  let z2 := cam.eye.z - cam.center.z
  let x0 := 1 * z2 - 0 * z1
  let x1 := -(0 : ℝ) * z2 + 0 * z0
  let x2 := 0 * z1 - 1 * z0
  let w0 := z1 * x2 - z2 * x1
  let w2 := z0 * x1 - z1 * x0
  let xmag := Real.sqrt (x0 * x0 + x2 * x2)
  let nx0 := if xmag ≠ 0 then x0 / xmag else x0
  let nx2 := if xmag ≠ 0 then x2 / xmag else x2
  let ymag := Real.sqrt (w0 * w0 + w2 * w2)
  let nw0 := if ymag ≠ 0 then w0 / ymag else w0
  let nw2 := if ymag ≠ 0 then w2 / ymag else w2
  let deltaX := -1 * sX * (inp.mouseX - inp.pmouseX)
  let deltaY := -1 * sY * (inp.mouseY - inp.pmouseY)
  ⟨⟨cam.eye.x + (deltaX * nx0 + deltaY * nw0), cam.eye.y,
    cam.eye.z + (deltaX * nx2 + deltaY * nw2)⟩,
   ⟨cam.center.x + (deltaX * nx0 + deltaY * nw0), cam.center.y,
    cam.center.z + (deltaX * nx2 + deltaY * nw2)⟩⟩

/-- The rotate branch of `interaction.js` (lines 111–154): derive spherical
coordinates from `eye - center`, add `0.1 * sensitivity * pointer delta` to
each angle, clamp the polar angle, and rebuild `eye` about the unchanged
`center`. -/
noncomputable def rotate1 (sX sY : ℝ) (inp : Input) (cam : CameraState) : CameraState :=
  let diff := vsub cam.eye cam.center
  let camTheta := thetaOf diff + 0.1 * sX * (inp.mouseX - inp.pmouseX)
  let camPhi := clampPhi (phiOf diff + 0.1 * sY * (inp.mouseY - inp.pmouseY))
  ⟨vadd (sphToCart (radiusOf diff) camTheta camPhi) cam.center, cam.center⟩

/-- The rotation-and-zoom branch of the scroll-enabled revision
(`part_000`, lines 129–186): angles are advanced only when the left button
is held, the wheel step is applied when the accumulator changed, the radius
is clamped to `[50, 2000]` and the polar angle to `(0, π]`, then `eye` is
rebuilt about the unchanged `center`. -/
noncomputable def rotzoom2 (sX sY : ℝ) (inp : Input) (cam : CameraState) : CameraState :=
  let diff := vsub cam.eye cam.center
  let camTheta :=
    if inp.mouseButton = MouseButton.left then
      thetaOf diff + 0.1 * sX * (inp.mouseX - inp.pmouseX)
    else thetaOf diff
  let camPhi :=
    if inp.mouseButton = MouseButton.left then
      phiOf diff + 0.1 * sY * (inp.mouseY - inp.pmouseY)
    else phiOf diff
  let camRadius :=
    if inp.mouseWheelDeltaY ≠ inp.pmouseWheelDeltaY then
      zoomStep inp.mouseWheelDeltaY (radiusOf diff)
    else radiusOf diff
  ⟨vadd (sphToCart (clampRadius camRadius) camTheta (clampPhi camPhi)) cam.center,
   cam.center⟩

/-- `interaction.js` revision of `orbitControl`: shift+drag pans, any other
press rotates, nothing happens (and `this.camera` is not called) when no
button is down. -/
noncomputable def orbitControl1 (sX sY : ℝ) (inp : Input) (cam : CameraState) : Result :=
  if inp.shiftDown ∧ inp.mouseIsPressed then ⟨pan1 sX sY inp cam, true⟩
  else if inp.mouseIsPressed then ⟨rotate1 sX sY inp cam, true⟩
  else ⟨cam, false⟩

/-- The pan stage of the scroll-enabled revision: the right button pans,
otherwise the state passes through. -/
noncomputable def panStage (sX sY : ℝ) (inp : Input) (cam : CameraState) : CameraState :=
  if inp.mouseButton = MouseButton.right then pan2 sX sY inp cam else cam

/-- The rotate/zoom stage of the scroll-enabled revision: runs when the left
button is held or the wheel-delta accumulator changed. -/
noncomputable def rotzoomStage (sX sY : ℝ) (inp : Input) (cam : CameraState) : CameraState :=
  if inp.mouseButton = MouseButton.left ∨ inp.mouseWheelDeltaY ≠ inp.pmouseWheelDeltaY then
    rotzoom2 sX sY inp cam
  else cam

/-- Scroll-enabled revision of `orbitControl` (`part_000`): gated on
`hasScrolled || mouseIsPressed`; inside the gate the pan stage runs first,
then the rotate/zoom stage, and `this.camera(...)` is called exactly once
even when neither inner branch fires. -/
noncomputable def orbitControl2 (sX sY : ℝ) (inp : Input) (cam : CameraState) : Result :=
  if inp.mouseWheelDeltaY ≠ inp.pmouseWheelDeltaY ∨ inp.mouseIsPressed then
    ⟨rotzoomStage sX sY inp (panStage sX sY inp cam), true⟩
  else ⟨cam, false⟩

/-- Modelled from the spec: the drag-distance-guarded revision of
`orbitControl` belongs to this repository's history but its source is not
under `src/`.  Per the spec's jitter guard, before applying any rotation it
computes the squared pointer displacement
`(mouseX-pmouseX)^2 + (mouseY-pmouseY)^2` and, when that exceeds 200,
discards the frame's input entirely and returns the state unchanged;
otherwise it behaves as the base update. -/
noncomputable def orbitControlDrag (sX sY : ℝ) (inp : Input) (cam : CameraState) : Result :=
  if (inp.mouseX - inp.pmouseX) * (inp.mouseX - inp.pmouseX) +
      (inp.mouseY - inp.pmouseY) * (inp.mouseY - inp.pmouseY) > 200 then
    ⟨cam, false⟩
  else orbitControl1 sX sY inp cam

/-- A JavaScript number produced by the rotate branch: `some x` is the
finite value `x`, `none` marks a non-finite result (NaN or an infinity).
Finite-magnitude overflow is outside the model, so within this branch the
only non-finite sources are division by zero and the propagation of a
non-finite operand. -/
abbrev JSNum := Option ℝ

/-- JavaScript addition: NaN/infinite operands poison the result. -/
def jsAdd : JSNum → JSNum → JSNum
  | some a, some b => some (a + b)
  | _, _ => none

/-- JavaScript multiplication: NaN/infinite operands poison the result
(`Infinity * 0` is NaN, so `none` absorbing is faithful here). -/
def jsMul : JSNum → JSNum → JSNum
  | some a, some b => some (a * b)
  | _, _ => none

/-- JavaScript division: `0/0` is NaN and `x/0` is an infinity, both
non-finite; a non-finite operand propagates.  (A finite quotient of a
non-finite divisor cannot arise in the rotate branch, whose only divisor is
a square root of a finite sum of squares.) -/
noncomputable def jsDiv : JSNum → JSNum → JSNum
  | some a, some b => if b = 0 then none else some (a / b)
  | _, _ => none

/-- JavaScript `Math.sqrt`: NaN on a negative or non-finite argument. -/
noncomputable def jsSqrt : JSNum → JSNum
  | some a => if a < 0 then none else some (Real.sqrt a)
  | none => none

/-- JavaScript `Math.min`: NaN operands propagate. -/
def jsMin : JSNum → JSNum → JSNum
  | some a, some b => some (min a b)
  | _, _ => none

/-- JavaScript `Math.max`: NaN operands propagate. -/
def jsMax : JSNum → JSNum → JSNum
  | some a, some b => some (max a b)
  | _, _ => none

/-- JavaScript `Math.acos`: NaN outside `[-1, 1]` and on non-finite
arguments. -/
noncomputable def jsAcos : JSNum → JSNum
  | some a => if a < -1 ∨ 1 < a then none else some (Real.arccos a)
  | none => none

/-- JavaScript `Math.sin`: NaN on a non-finite argument. -/
noncomputable def jsSin : JSNum → JSNum
  | some a => some (Real.sin a)
  | none => none

/-- JavaScript `Math.cos`: NaN on a non-finite argument. -/
noncomputable def jsCos : JSNum → JSNum
  | some a => some (Real.cos a)
  | none => none

/-- JavaScript `Math.atan2` on the finite range; a NaN operand propagates. -/
noncomputable def jsAtan2 : JSNum → JSNum → JSNum
  | some y, some x => some (atan2 y x)
  | _, _ => none

/-- The polar-angle clamp under JavaScript comparison semantics: both
`NaN > Math.PI` and `NaN <= 0` are false, so a non-finite `phi` passes
through the clamp unchanged. -/
noncomputable def jsClampPhi : JSNum → JSNum
  | some p => some (clampPhi p)
  | none => none

/-- The rotate branch of `interaction.js` (lines 111–154) re-traced with
non-finite values tracked, so that the behaviour of the genuine JavaScript
arithmetic at `eye = center` (where `diffY / camRadius` is `0/0`, i.e. NaN)
is visible.  Returns the three components of the recomputed `eye`. -/
noncomputable def rotateJS (sX sY : ℝ) (inp : Input) (cam : CameraState) :
    JSNum × JSNum × JSNum :=
  let deltaTheta := 0.1 * sX * (inp.mouseX - inp.pmouseX)
  let deltaPhi := 0.1 * sY * (inp.mouseY - inp.pmouseY)
  let diffX : JSNum := some (cam.eye.x - cam.center.x)
  let diffY : JSNum := some (cam.eye.y - cam.center.y)
  let diffZ : JSNum := some (cam.eye.z - cam.center.z)
  let camRadius :=
    jsSqrt (jsAdd (jsAdd (jsMul diffX diffX) (jsMul diffY diffY)) (jsMul diffZ diffZ))
  let camTheta := jsAdd (jsAtan2 diffX diffZ) (some deltaTheta)
  let camPhi :=
    jsClampPhi
      (jsAdd (jsAcos (jsMax (some (-1)) (jsMin (some 1) (jsDiv diffY camRadius))))
        (some deltaPhi))
  let sinPhiRadius := jsMul (jsSin camPhi) camRadius
  (jsAdd (jsMul sinPhiRadius (jsSin camTheta)) (some cam.center.x),
   jsAdd (jsMul (jsCos camPhi) camRadius) (some cam.center.y),
   jsAdd (jsMul sinPhiRadius (jsCos camTheta)) (some cam.center.z))

lemma clampPhi_eq_self {x : ℝ} (h1 : 0 < x) (h2 : x ≤ Real.pi) : clampPhi x = x := by
  unfold clampPhi
  rw [if_neg (not_lt.mpr h2), if_neg (not_le.mpr h1)]

lemma clampRadius_pos (r : ℝ) : 0 < clampRadius r := by
  unfold clampRadius
  split_ifs with h1 h2
  · norm_num
  · norm_num
  · push_neg at h2
    linarith

lemma radiusOf_nonneg (d : Vec3) : 0 ≤ radiusOf d :=
  Real.sqrt_nonneg _

lemma radiusOf_pos {d : Vec3} (hd : d ≠ ⟨0, 0, 0⟩) : 0 < radiusOf d := by
  unfold radiusOf
  apply Real.sqrt_pos.mpr
  by_contra h
  push_neg at h
  have hx : d.x * d.x = 0 :=
    le_antisymm (by nlinarith [mul_self_nonneg d.y, mul_self_nonneg d.z]) (mul_self_nonneg d.x)
  have hy : d.y * d.y = 0 :=
    le_antisymm (by nlinarith [mul_self_nonneg d.x, mul_self_nonneg d.z]) (mul_self_nonneg d.y)
  have hz : d.z * d.z = 0 :=
    le_antisymm (by nlinarith [mul_self_nonneg d.x, mul_self_nonneg d.y]) (mul_self_nonneg d.z)
  apply hd
  ext
  · exact mul_self_eq_zero.mp hx
  · exact mul_self_eq_zero.mp hy
  · exact mul_self_eq_zero.mp hz

lemma radiusOf_sphToCart (r theta phi : ℝ) (hr : 0 ≤ r) :
    radiusOf (sphToCart r theta phi) = r := by
  unfold radiusOf sphToCart
  simp only
  have h1 : Real.sin theta ^ 2 + Real.cos theta ^ 2 = 1 := Real.sin_sq_add_cos_sq theta
  have h2 : Real.sin phi ^ 2 + Real.cos phi ^ 2 = 1 := Real.sin_sq_add_cos_sq phi
  have key :
      Real.sin phi * r * Real.sin theta * (Real.sin phi * r * Real.sin theta) +
        Real.cos phi * r * (Real.cos phi * r) +
        Real.sin phi * r * Real.cos theta * (Real.sin phi * r * Real.cos theta) = r ^ 2 := by
    linear_combination (Real.sin phi) ^ 2 * r ^ 2 * h1 + r ^ 2 * h2
  rw [key]
  exact Real.sqrt_sq hr

lemma phiOf_sphToCart (r theta phi : ℝ) (hr : 0 < r) (h0 : 0 ≤ phi) (hpi : phi ≤ Real.pi) :
    phiOf (sphToCart r theta phi) = phi := by
  unfold phiOf
  rw [radiusOf_sphToCart r theta phi hr.le]
  have hy : (sphToCart r theta phi).y = Real.cos phi * r := rfl
  rw [hy, mul_div_assoc, div_self (ne_of_gt hr), mul_one,
    min_eq_right (Real.cos_le_one phi), max_eq_right (Real.neg_one_le_cos phi)]
  exact Real.arccos_cos h0 hpi

lemma thetaOf_sphToCart (r theta phi : ℝ) (hrho : 0 < Real.sin phi * r)
    (h1 : -Real.pi < theta) (h2 : theta ≤ Real.pi) :
    thetaOf (sphToCart r theta phi) = theta := by
  unfold thetaOf atan2
  have hz : (⟨(sphToCart r theta phi).z, (sphToCart r theta phi).x⟩ : ℂ) =
      ((Real.sin phi * r : ℝ) : ℂ) * (Complex.cos theta + Complex.sin theta * Complex.I) := by
    apply Complex.ext <;>
      simp [sphToCart, Complex.mul_re, Complex.mul_im, Complex.cos_ofReal_re,
        Complex.sin_ofReal_re, Complex.cos_ofReal_im, Complex.sin_ofReal_im]
  rw [hz, Complex.arg_real_mul _ hrho, Complex.arg_cos_add_sin_mul_I ⟨h1, h2⟩]

lemma sphToCart_theta_sub_int_mul_two_pi (r theta phi : ℝ) (k : ℤ) :
    sphToCart r (theta - k * (2 * Real.pi)) phi = sphToCart r theta phi := by
  unfold sphToCart
  simp only
  rw [Real.sin_sub_int_mul_two_pi, Real.cos_sub_int_mul_two_pi]

lemma thetaOf_sphToCart_mod (r theta phi : ℝ) (hrho : 0 < Real.sin phi * r) :
    ∃ k : ℤ, thetaOf (sphToCart r theta phi) = theta - k * (2 * Real.pi) := by
  have h2pi : (0 : ℝ) < 2 * Real.pi := by positivity
  refine ⟨toIocDiv h2pi (-Real.pi) theta, ?_⟩
  have hwrap : theta - (toIocDiv h2pi (-Real.pi) theta : ℤ) * (2 * Real.pi) =
      toIocMod h2pi (-Real.pi) theta := by
    rw [show toIocMod h2pi (-Real.pi) theta =
        theta - toIocDiv h2pi (-Real.pi) theta • (2 * Real.pi) from rfl, zsmul_eq_mul]
  have hmem := toIocMod_mem_Ioc h2pi (-Real.pi) theta
  rw [show -Real.pi + 2 * Real.pi = Real.pi by ring] at hmem
  rw [hwrap, ← sphToCart_theta_sub_int_mul_two_pi r theta phi
      (toIocDiv h2pi (-Real.pi) theta), hwrap]
  exact thetaOf_sphToCart r _ phi hrho hmem.1 hmem.2

lemma phiOf_nonneg (d : Vec3) : 0 ≤ phiOf d :=
  Real.arccos_nonneg _

lemma phiOf_le_pi (d : Vec3) : phiOf d ≤ Real.pi :=
  Real.arccos_le_pi _

lemma sph_roundtrip (d : Vec3) (hd : d ≠ ⟨0, 0, 0⟩) :
    sphToCart (radiusOf d) (thetaOf d) (phiOf d) = d := by
  have hr : 0 < radiusOf d := radiusOf_pos hd
  have hS : (0 : ℝ) ≤ d.x * d.x + d.y * d.y + d.z * d.z := by
    nlinarith [mul_self_nonneg d.x, mul_self_nonneg d.y, mul_self_nonneg d.z]
  have hr2 : radiusOf d ^ 2 = d.x * d.x + d.y * d.y + d.z * d.z := by
    unfold radiusOf
    exact Real.sq_sqrt hS
  have hyr : |d.y| ≤ radiusOf d := by
    rw [← Real.sqrt_mul_self_eq_abs]
    unfold radiusOf
    apply Real.sqrt_le_sqrt
    nlinarith [mul_self_nonneg d.x, mul_self_nonneg d.z]
  have hq1 : -1 ≤ d.y / radiusOf d := by
    rw [le_div_iff₀ hr]
    have := abs_le.mp hyr
    linarith [this.1]
  have hq2 : d.y / radiusOf d ≤ 1 := by
    rw [div_le_one hr]
    exact (abs_le.mp hyr).2
  have hphi : phiOf d = Real.arccos (d.y / radiusOf d) := by
    unfold phiOf
    rw [min_eq_right hq2, max_eq_right hq1]
  have hcos : Real.cos (phiOf d) = d.y / radiusOf d := by
    rw [hphi]
    exact Real.cos_arccos hq1 hq2
  have hrho : Real.sin (phiOf d) * radiusOf d = Real.sqrt (d.x * d.x + d.z * d.z) := by
    rw [hphi, Real.sin_arccos]
    have hone : (0 : ℝ) ≤ 1 - (d.y / radiusOf d) ^ 2 := by
      nlinarith [hq1, hq2]
    have hrne : radiusOf d ≠ 0 := ne_of_gt hr
    have hsplit : Real.sqrt (1 - (d.y / radiusOf d) ^ 2) * radiusOf d =
        Real.sqrt ((1 - (d.y / radiusOf d) ^ 2) * radiusOf d ^ 2) := by
      rw [Real.sqrt_mul hone, Real.sqrt_sq hr.le]
    rw [hsplit]
    congr 1
    field_simp
    linear_combination hr2
  have habs : Complex.abs ⟨d.z, d.x⟩ = Real.sqrt (d.x * d.x + d.z * d.z) := by
    rw [Complex.abs_apply, Complex.normSq_mk]
    congr 1
    ring
  by_cases hw : (⟨d.z, d.x⟩ : ℂ) = 0
  · have hz0 : d.z = 0 := by simpa using congrArg Complex.re hw
    have hx0 : d.x = 0 := by simpa using congrArg Complex.im hw
    have hrho0 : Real.sin (phiOf d) * radiusOf d = 0 := by
      rw [hrho, hz0, hx0]
      simp
    ext
    · show Real.sin (phiOf d) * radiusOf d * Real.sin (thetaOf d) = d.x
      rw [hrho0, hx0, zero_mul]
    · show Real.cos (phiOf d) * radiusOf d = d.y
      rw [hcos, div_mul_cancel₀ _ (ne_of_gt hr)]
    · show Real.sin (phiOf d) * radiusOf d * Real.cos (thetaOf d) = d.z
      rw [hrho0, hz0, zero_mul]
  · have habspos : 0 < Real.sqrt (d.x * d.x + d.z * d.z) := by
      rw [← habs]
      exact Complex.abs.pos hw
    have hsinth : Real.sin (thetaOf d) = d.x / Real.sqrt (d.x * d.x + d.z * d.z) := by
      unfold thetaOf atan2
      rw [Complex.sin_arg, habs]
    have hcosth : Real.cos (thetaOf d) = d.z / Real.sqrt (d.x * d.x + d.z * d.z) := by
      unfold thetaOf atan2
      rw [Complex.cos_arg hw, habs]
    ext
    · show Real.sin (phiOf d) * radiusOf d * Real.sin (thetaOf d) = d.x
      rw [hrho, hsinth, mul_div_assoc', mul_comm, mul_div_assoc,
        div_self (ne_of_gt habspos), mul_one]
    · show Real.cos (phiOf d) * radiusOf d = d.y
      rw [hcos, div_mul_cancel₀ _ (ne_of_gt hr)]
    · show Real.sin (phiOf d) * radiusOf d * Real.cos (thetaOf d) = d.z
      rw [hrho, hcosth, mul_div_assoc', mul_comm, mul_div_assoc,
        div_self (ne_of_gt habspos), mul_one]

lemma vsub_vadd_cancel (v c : Vec3) : vsub (vadd v c) c = v := by
  ext <;> simp [vsub, vadd]

lemma pan1_vsub (sX sY : ℝ) (inp : Input) (cam : CameraState) :
    vsub (pan1 sX sY inp cam).eye (pan1 sX sY inp cam).center = vsub cam.eye cam.center := by
  simp only [pan1, vsub]
  ext <;> ring

lemma pan2_vsub (sX sY : ℝ) (inp : Input) (cam : CameraState) :
    vsub (pan2 sX sY inp cam).eye (pan2 sX sY inp cam).center = vsub cam.eye cam.center := by
  simp only [pan2, vsub]
  ext <;> ring

/-- C1: after every update that modifies the polar angle, the clamped `phi`
lies in the half-open interval `(0, π]` and is never exactly 0; a value
above `π` is set to `π` and a value at most 0 is set to `0.001`. -/
theorem phi_clamp_spec (phi : ℝ) :
    (0 < clampPhi phi ∧ clampPhi phi ≤ Real.pi) ∧
    (Real.pi < phi → clampPhi phi = Real.pi) ∧
    (phi ≤ 0 → clampPhi phi = 0.001) ∧
    clampPhi phi ≠ 0 := by
  have h3 : (3 : ℝ) < Real.pi := Real.pi_gt_three
  unfold clampPhi
  split_ifs with h1 h2
  · exact ⟨⟨Real.pi_pos, le_refl _⟩, fun _ => rfl,
      fun h => absurd (h.trans_lt Real.pi_pos) (not_lt.mpr h1.le), ne_of_gt Real.pi_pos⟩
  · refine ⟨⟨by norm_num, by linarith⟩, fun h => absurd h h1, fun _ => rfl, by norm_num⟩
  · push_neg at h1 h2
    exact ⟨⟨h2, h1⟩, fun h => absurd h (not_lt.mpr h1),
      fun h => absurd h (not_le.mpr h2), ne_of_gt h2⟩

/-- Witness for C1 at concrete inputs on both clamped sides. -/
theorem phi_clamp_spec_witness :
    clampPhi 4 = Real.pi ∧ clampPhi (-5) = 0.001 := by
  have h4 : Real.pi < 4 := Real.pi_lt_four
  exact ⟨(phi_clamp_spec 4).2.1 h4, (phi_clamp_spec (-5)).2.2.1 (by norm_num)⟩

/-- C2: the clamped camera radius lies in `[50, 2000]`; values above 2000
are set to 2000 and values below 50 are set to 50, before reconversion to
Cartesian coordinates. -/
theorem radius_clamp_spec (r : ℝ) :
    (50 ≤ clampRadius r ∧ clampRadius r ≤ 2000) ∧
    (2000 < r → clampRadius r = 2000) ∧
    (r < 50 → clampRadius r = 50) := by
  unfold clampRadius
  split_ifs with h1 h2
  · exact ⟨⟨by norm_num, le_refl _⟩, fun _ => rfl, fun h => by linarith⟩
  · exact ⟨⟨by norm_num, by norm_num⟩, fun h => absurd h h1, fun _ => rfl⟩
  · push_neg at h1 h2
    exact ⟨⟨h2, h1⟩, fun h => absurd h (not_lt.mpr h1), fun h => absurd h (not_lt.mpr h2)⟩

/-- Witness for C2 at concrete inputs on both clamped sides. -/
theorem radius_clamp_spec_witness :
    clampRadius 3000 = 2000 ∧ clampRadius 7 = 50 := by
  exact ⟨(radius_clamp_spec 3000).2.1 (by norm_num), (radius_clamp_spec 7).2.2 (by norm_num)⟩

lemma radiusOf_00z {z : ℝ} (hz : 0 ≤ z) : radiusOf ⟨0, 0, z⟩ = z := by
  unfold radiusOf
  simp [Real.sqrt_mul_self hz]

lemma thetaOf_00z {z : ℝ} (hz : 0 ≤ z) : thetaOf ⟨0, 0, z⟩ = 0 := by
  unfold thetaOf atan2
  have hzc : (⟨z, 0⟩ : ℂ) = ((z : ℝ) : ℂ) := by
    apply Complex.ext <;> simp
  rw [show (⟨0, 0, z⟩ : Vec3).x = 0 from rfl, show (⟨0, 0, z⟩ : Vec3).z = z from rfl, hzc]
  exact Complex.arg_ofReal_of_nonneg hz

lemma phiOf_00z {z : ℝ} (hz : 0 < z) : phiOf ⟨0, 0, z⟩ = Real.pi / 2 := by
  unfold phiOf
  rw [radiusOf_00z hz.le, show (⟨0, 0, z⟩ : Vec3).y = 0 from rfl, zero_div,
    min_eq_right (by norm_num : (0 : ℝ) ≤ 1), max_eq_right (by norm_num : (-1 : ℝ) ≤ 0)]
  exact Real.arccos_zero

lemma panStage_vsub (sX sY : ℝ) (inp : Input) (cam : CameraState) :
    vsub (panStage sX sY inp cam).eye (panStage sX sY inp cam).center =
      vsub cam.eye cam.center := by
  unfold panStage
  split_ifs with hbtn
  · exact pan2_vsub sX sY inp cam
  · rfl

/-- C3 counterexample: a frame of the scroll-enabled revision in which the
wheel-delta accumulator changed and decreased (from 5 to 3), yet the radius
grows by 10 (800 becomes 810) instead of shrinking to 790, because the code
tests the current accumulator value `mouseWheelDeltaY > 1` rather than the
direction of its change. -/
theorem zoom_step_direction_cex :
    (3 : ℝ) < 5 ∧
    radiusOf (vsub (⟨⟨0, 0, 800⟩, ⟨0, 0, 0⟩⟩ : CameraState).eye
        (⟨⟨0, 0, 800⟩, ⟨0, 0, 0⟩⟩ : CameraState).center) = 800 ∧
    radiusOf (vsub (orbitControl2 1 1 ⟨0, 0, 0, 0, false, MouseButton.none, false, 3, 5⟩
          ⟨⟨0, 0, 800⟩, ⟨0, 0, 0⟩⟩).state.eye
        (orbitControl2 1 1 ⟨0, 0, 0, 0, false, MouseButton.none, false, 3, 5⟩
          ⟨⟨0, 0, 800⟩, ⟨0, 0, 0⟩⟩).state.center) = 810 ∧
    (810 : ℝ) ≠ 800 - 10 := by
  have hv : vsub (⟨⟨0, 0, 800⟩, ⟨0, 0, 0⟩⟩ : CameraState).eye
      (⟨⟨0, 0, 800⟩, ⟨0, 0, 0⟩⟩ : CameraState).center = ⟨0, 0, 800⟩ := by
    ext <;> simp [vsub]
  have hr : radiusOf (vsub (⟨⟨0, 0, 800⟩, ⟨0, 0, 0⟩⟩ : CameraState).eye
      (⟨⟨0, 0, 800⟩, ⟨0, 0, 0⟩⟩ : CameraState).center) = 800 := by
    rw [hv, radiusOf_00z (by norm_num : (0 : ℝ) ≤ 800)]
  refine ⟨by norm_num, hr, ?_, by norm_num⟩
  unfold orbitControl2
  rw [if_pos (Or.inl (by norm_num))]
  unfold rotzoomStage
  rw [if_pos (Or.inr (by norm_num))]
  unfold rotzoom2
  simp only
  rw [vsub_vadd_cancel, radiusOf_sphToCart _ _ _ (clampRadius_pos _).le,
    if_pos (by norm_num : (3 : ℝ) ≠ 5), panStage_vsub, hv,
    radiusOf_00z (by norm_num : (0 : ℝ) ≤ 800)]
  unfold zoomStep
  rw [if_pos (by norm_num : (3 : ℝ) > 1)]
  unfold clampRadius
  rw [if_neg (by norm_num), if_neg (by norm_num)]
  norm_num

/-- C3 amended: in the scroll-enabled revision, whenever the wheel-delta
accumulator changed since the previous sample, the new camera radius equals
the old derived radius stepped by the wheel rule — `+10` when the current
accumulator value exceeds 1, `-10` when it is below `-1`, unchanged
otherwise — and then clamped to `[50, 2000]`; the step direction depends on
the current accumulator value, not on whether it increased or decreased. -/
theorem zoom_step_amended (sX sY : ℝ) (inp : Input) (cam : CameraState)
    (hw : inp.mouseWheelDeltaY ≠ inp.pmouseWheelDeltaY) :
    radiusOf (vsub (orbitControl2 sX sY inp cam).state.eye
        (orbitControl2 sX sY inp cam).state.center) =
      clampRadius (zoomStep inp.mouseWheelDeltaY (radiusOf (vsub cam.eye cam.center))) := by
  unfold orbitControl2
  rw [if_pos (Or.inl hw)]
  unfold rotzoomStage
  rw [if_pos (Or.inr hw)]
  unfold rotzoom2
  simp only
  rw [vsub_vadd_cancel, radiusOf_sphToCart _ _ _ (clampRadius_pos _).le, if_pos hw,
    panStage_vsub]

/-- Witness for C3 amended at a concrete scrolled frame. -/
theorem zoom_step_amended_witness :
    radiusOf (vsub (orbitControl2 1 1 ⟨0, 0, 0, 0, false, MouseButton.none, false, -4, 0⟩
          ⟨⟨0, 0, 700⟩, ⟨0, 0, 0⟩⟩).state.eye
        (orbitControl2 1 1 ⟨0, 0, 0, 0, false, MouseButton.none, false, -4, 0⟩
          ⟨⟨0, 0, 700⟩, ⟨0, 0, 0⟩⟩).state.center) =
      clampRadius (zoomStep (-4) (radiusOf (vsub (⟨⟨0, 0, 700⟩, ⟨0, 0, 0⟩⟩ : CameraState).eye
        (⟨⟨0, 0, 700⟩, ⟨0, 0, 0⟩⟩ : CameraState).center))) :=
  zoom_step_amended 1 1 _ _ (by norm_num)

/-- C4: with no pointer button pressed and (in the scroll-enabled revision)
no change in the wheel-delta accumulator, both revisions leave the camera
state unchanged and perform no view-update call; in particular a call with
zero pointer delta and no button pressed leaves eye and center unchanged. -/
theorem idle_frame_noop (sX sY : ℝ) (inp : Input) (cam : CameraState)
    (hp : inp.mouseIsPressed = false)
    (hw : inp.mouseWheelDeltaY = inp.pmouseWheelDeltaY) :
    orbitControl1 sX sY inp cam = ⟨cam, false⟩ ∧
    orbitControl2 sX sY inp cam = ⟨cam, false⟩ := by
  constructor
  · unfold orbitControl1
    rw [if_neg (by simp [hp]), if_neg (by simp [hp])]
  · unfold orbitControl2
    rw [if_neg (by simp [hp, hw])]

/-- Witness for C4: a concrete idle frame with zero pointer delta. -/
theorem idle_frame_noop_witness :
    orbitControl1 1 1 ⟨7, 7, 9, 9, false, MouseButton.none, false, 0, 0⟩
        ⟨⟨0, 0, 800⟩, ⟨0, 0, 0⟩⟩ = ⟨⟨⟨0, 0, 800⟩, ⟨0, 0, 0⟩⟩, false⟩ ∧
    orbitControl2 1 1 ⟨7, 7, 9, 9, false, MouseButton.none, false, 0, 0⟩
        ⟨⟨0, 0, 800⟩, ⟨0, 0, 0⟩⟩ = ⟨⟨⟨0, 0, 800⟩, ⟨0, 0, 0⟩⟩, false⟩ :=
  idle_frame_noop 1 1 _ _ rfl rfl

/-- C5: a pure pan frame (pan trigger active, no zoom) moves eye and center
by identical offsets, so the vector `eye - center` — and with it the viewing
distance — is exactly preserved by both revisions. -/
theorem pan_preserves_view (sX sY : ℝ) (inp : Input) (cam : CameraState) :
    (inp.shiftDown = true ∧ inp.mouseIsPressed = true →
      vsub (orbitControl1 sX sY inp cam).state.eye
          (orbitControl1 sX sY inp cam).state.center = vsub cam.eye cam.center ∧
      radiusOf (vsub (orbitControl1 sX sY inp cam).state.eye
          (orbitControl1 sX sY inp cam).state.center) =
        radiusOf (vsub cam.eye cam.center)) ∧
    (inp.mouseButton = MouseButton.right ∧ inp.mouseIsPressed = true ∧
        inp.mouseWheelDeltaY = inp.pmouseWheelDeltaY →
      vsub (orbitControl2 sX sY inp cam).state.eye
          (orbitControl2 sX sY inp cam).state.center = vsub cam.eye cam.center ∧
      radiusOf (vsub (orbitControl2 sX sY inp cam).state.eye
          (orbitControl2 sX sY inp cam).state.center) =
        radiusOf (vsub cam.eye cam.center)) := by
  constructor
  · rintro ⟨hs, hp⟩
    unfold orbitControl1
    rw [if_pos (by simp [hs, hp])]
    have h := pan1_vsub sX sY inp cam
    exact ⟨h, by rw [h]⟩
  · rintro ⟨hb, hp, hw⟩
    unfold orbitControl2 rotzoomStage panStage
    rw [if_pos (Or.inr (by simp [hp])), if_neg (by simp [hb, hw]), if_pos hb]
    have h := pan2_vsub sX sY inp cam
    exact ⟨h, by rw [h]⟩

/-- Witness for C5: concrete pure-pan frames for each revision. -/
theorem pan_preserves_view_witness :
    vsub (orbitControl1 1 1 ⟨3, 0, 4, 0, true, MouseButton.none, true, 0, 0⟩
          ⟨⟨0, 0, 800⟩, ⟨0, 0, 0⟩⟩).state.eye
        (orbitControl1 1 1 ⟨3, 0, 4, 0, true, MouseButton.none, true, 0, 0⟩
          ⟨⟨0, 0, 800⟩, ⟨0, 0, 0⟩⟩).state.center =
      vsub (⟨0, 0, 800⟩ : Vec3) ⟨0, 0, 0⟩ ∧
    vsub (orbitControl2 1 1 ⟨3, 0, 4, 0, true, MouseButton.right, false, 0, 0⟩
          ⟨⟨0, 0, 800⟩, ⟨0, 0, 0⟩⟩).state.eye
        (orbitControl2 1 1 ⟨3, 0, 4, 0, true, MouseButton.right, false, 0, 0⟩
          ⟨⟨0, 0, 800⟩, ⟨0, 0, 0⟩⟩).state.center =
      vsub (⟨0, 0, 800⟩ : Vec3) ⟨0, 0, 0⟩ :=
  ⟨((pan_preserves_view 1 1 _ _).1 ⟨rfl, rfl⟩).1,
   ((pan_preserves_view 1 1 _ _).2 ⟨rfl, rfl, rfl⟩).1⟩

/-- C7: in the drag-distance revision (modelled from the spec), a frame
whose squared pointer displacement exceeds 200 is discarded entirely: the
state is returned unchanged and no view update happens. -/
theorem drag_guard_noop (sX sY : ℝ) (inp : Input) (cam : CameraState)
    (h : (inp.mouseX - inp.pmouseX) * (inp.mouseX - inp.pmouseX) +
        (inp.mouseY - inp.pmouseY) * (inp.mouseY - inp.pmouseY) > 200) :
    orbitControlDrag sX sY inp cam = ⟨cam, false⟩ := by
  unfold orbitControlDrag
  rw [if_pos h]

/-- Witness for C7: pointer delta (20, 20), squared displacement 800. -/
theorem drag_guard_noop_witness :
    orbitControlDrag 1 1 ⟨20, 0, 20, 0, true, MouseButton.left, false, 0, 0⟩
        ⟨⟨0, 0, 800⟩, ⟨0, 0, 0⟩⟩ = ⟨⟨⟨0, 0, 800⟩, ⟨0, 0, 0⟩⟩, false⟩ :=
  drag_guard_noop 1 1 _ _ (by norm_num)

/-- C10: a pan-mode update (pan trigger active and, in the scroll-enabled
revision, the rotate/zoom stage not triggered) leaves the Y components of
eye and center exactly unchanged: the pan displacement only touches X and
Z. -/
theorem pan_keeps_y (sX sY : ℝ) (inp : Input) (cam : CameraState) :
    (inp.shiftDown = true ∧ inp.mouseIsPressed = true →
      (orbitControl1 sX sY inp cam).state.eye.y = cam.eye.y ∧
      (orbitControl1 sX sY inp cam).state.center.y = cam.center.y) ∧
    (inp.mouseButton = MouseButton.right ∧ inp.mouseIsPressed = true ∧
        inp.mouseWheelDeltaY = inp.pmouseWheelDeltaY →
      (orbitControl2 sX sY inp cam).state.eye.y = cam.eye.y ∧
      (orbitControl2 sX sY inp cam).state.center.y = cam.center.y) := by
  constructor
  · rintro ⟨hs, hp⟩
    unfold orbitControl1
    rw [if_pos (by simp [hs, hp])]
    exact ⟨rfl, rfl⟩
  · rintro ⟨hb, hp, hw⟩
    unfold orbitControl2 rotzoomStage panStage
    rw [if_pos (Or.inr (by simp [hp])), if_neg (by simp [hb, hw]), if_pos hb]
    exact ⟨rfl, rfl⟩

/-- Witness for C10: concrete pan frames with a vertical pointer delta. -/
theorem pan_keeps_y_witness :
    (orbitControl1 1 1 ⟨0, 0, 25, 0, true, MouseButton.none, true, 0, 0⟩
        ⟨⟨0, 5, 800⟩, ⟨0, 1, 0⟩⟩).state.eye.y = 5 ∧
    (orbitControl2 1 1 ⟨0, 0, 25, 0, true, MouseButton.right, false, 0, 0⟩
        ⟨⟨0, 5, 800⟩, ⟨0, 1, 0⟩⟩).state.center.y = 1 :=
  ⟨((pan_keeps_y 1 1 _ _).1 ⟨rfl, rfl⟩).1,
   ((pan_keeps_y 1 1 _ _).2 ⟨rfl, rfl, rfl⟩).2⟩

/-- C8: for `eye = (0,0,800)`, `center = (0,0,0)`, primary button held,
pointer delta `(100, 0)` and sensitivities 1: the derived angles are
`theta = 0`, `phi = π/2`, the derived radius is 800; the update adds exactly
10 (`0.1 * 1 * 100`) to `theta`, leaves `phi` at `π/2`, leaves `center`
unchanged, recomputes `eye` as `center + sphToCart 800 (0 + 10) (π/2)`, and
the distance from the new eye to the center is still 800. -/
theorem rotate_scenario_concrete :
    thetaOf (vsub (⟨⟨0, 0, 800⟩, ⟨0, 0, 0⟩⟩ : CameraState).eye
        (⟨⟨0, 0, 800⟩, ⟨0, 0, 0⟩⟩ : CameraState).center) = 0 ∧
    phiOf (vsub (⟨⟨0, 0, 800⟩, ⟨0, 0, 0⟩⟩ : CameraState).eye
        (⟨⟨0, 0, 800⟩, ⟨0, 0, 0⟩⟩ : CameraState).center) = Real.pi / 2 ∧
    radiusOf (vsub (⟨⟨0, 0, 800⟩, ⟨0, 0, 0⟩⟩ : CameraState).eye
        (⟨⟨0, 0, 800⟩, ⟨0, 0, 0⟩⟩ : CameraState).center) = 800 ∧
    (orbitControl1 1 1 ⟨100, 0, 0, 0, true, MouseButton.left, false, 0, 0⟩
        ⟨⟨0, 0, 800⟩, ⟨0, 0, 0⟩⟩).state =
      ⟨vadd (sphToCart 800 (0 + 10) (Real.pi / 2)) ⟨0, 0, 0⟩, ⟨0, 0, 0⟩⟩ ∧
    radiusOf (vsub (orbitControl1 1 1 ⟨100, 0, 0, 0, true, MouseButton.left, false, 0, 0⟩
          ⟨⟨0, 0, 800⟩, ⟨0, 0, 0⟩⟩).state.eye
        (orbitControl1 1 1 ⟨100, 0, 0, 0, true, MouseButton.left, false, 0, 0⟩
          ⟨⟨0, 0, 800⟩, ⟨0, 0, 0⟩⟩).state.center) = 800 := by
  have hv : vsub (⟨⟨0, 0, 800⟩, ⟨0, 0, 0⟩⟩ : CameraState).eye
      (⟨⟨0, 0, 800⟩, ⟨0, 0, 0⟩⟩ : CameraState).center = ⟨0, 0, 800⟩ := by
    ext <;> simp [vsub]
  have ht : thetaOf (⟨0, 0, 800⟩ : Vec3) = 0 := thetaOf_00z (by norm_num)
  have hp : phiOf (⟨0, 0, 800⟩ : Vec3) = Real.pi / 2 := phiOf_00z (by norm_num)
  have hr : radiusOf (⟨0, 0, 800⟩ : Vec3) = 800 := radiusOf_00z (by norm_num)
  have hstate : (orbitControl1 1 1 ⟨100, 0, 0, 0, true, MouseButton.left, false, 0, 0⟩
      ⟨⟨0, 0, 800⟩, ⟨0, 0, 0⟩⟩).state =
      ⟨vadd (sphToCart 800 (0 + 10) (Real.pi / 2)) ⟨0, 0, 0⟩, ⟨0, 0, 0⟩⟩ := by
    unfold orbitControl1
    rw [if_neg (by simp), if_pos (by simp)]
    unfold rotate1
    simp only
    rw [hv, ht, hp, hr]
    have hdx : (0.1 : ℝ) * 1 * (100 - 0) = 10 := by norm_num
    have hdy : Real.pi / 2 + 0.1 * 1 * (0 - 0) = Real.pi / 2 := by norm_num
    rw [hdx, hdy, clampPhi_eq_self (by positivity) (by linarith [Real.pi_pos])]
  refine ⟨by rw [hv, ht], by rw [hv, hp], by rw [hv, hr], hstate, ?_⟩
  rw [hstate]
  simp only
  rw [vsub_vadd_cancel, radiusOf_sphToCart _ _ _ (by norm_num : (0 : ℝ) ≤ 800)]

/-- C6 counterexample: rotating from `eye = (0,0,800)` (derived
`phi = π/2`) by pointer delta `(0, 100)` pushes `phi` past `π`, where the
clamp fixes it at `π`; rotating back by `(0, -100)` then lands at
`π - 10 ≤ 0`, which the clamp replaces with `0.001`.  The final derived
`phi` is `0.001`, not the original `π/2`, so the rotation is not reversible
under negated pointer deltas for every camera state. -/
theorem rotate_reverse_cex :
    phiOf (vsub (⟨⟨0, 0, 800⟩, ⟨0, 0, 0⟩⟩ : CameraState).eye
        (⟨⟨0, 0, 800⟩, ⟨0, 0, 0⟩⟩ : CameraState).center) = Real.pi / 2 ∧
    phiOf (vsub
        (orbitControl1 1 1 ⟨0, 0, -100, 0, true, MouseButton.left, false, 0, 0⟩
          (orbitControl1 1 1 ⟨0, 0, 100, 0, true, MouseButton.left, false, 0, 0⟩
            ⟨⟨0, 0, 800⟩, ⟨0, 0, 0⟩⟩).state).state.eye
        (orbitControl1 1 1 ⟨0, 0, -100, 0, true, MouseButton.left, false, 0, 0⟩
          (orbitControl1 1 1 ⟨0, 0, 100, 0, true, MouseButton.left, false, 0, 0⟩
            ⟨⟨0, 0, 800⟩, ⟨0, 0, 0⟩⟩).state).state.center) = 0.001 ∧
    (0.001 : ℝ) ≠ Real.pi / 2 := by
  have hv : vsub (⟨⟨0, 0, 800⟩, ⟨0, 0, 0⟩⟩ : CameraState).eye
      (⟨⟨0, 0, 800⟩, ⟨0, 0, 0⟩⟩ : CameraState).center = ⟨0, 0, 800⟩ := by
    ext <;> simp [vsub]
  have hph0 : phiOf (⟨0, 0, 800⟩ : Vec3) = Real.pi / 2 := phiOf_00z (by norm_num)
  have hstate1 : (orbitControl1 1 1 ⟨0, 0, 100, 0, true, MouseButton.left, false, 0, 0⟩
      ⟨⟨0, 0, 800⟩, ⟨0, 0, 0⟩⟩).state =
      ⟨vadd (sphToCart 800 0 Real.pi) ⟨0, 0, 0⟩, ⟨0, 0, 0⟩⟩ := by
    unfold orbitControl1
    rw [if_neg (by simp), if_pos (by simp)]
    unfold rotate1
    simp only
    rw [hv, thetaOf_00z (by norm_num), phiOf_00z (by norm_num), radiusOf_00z (by norm_num)]
    have h1 : (0 : ℝ) + 0.1 * 1 * (0 - 0) = 0 := by norm_num
    have h2 : Real.pi / 2 + 0.1 * 1 * (100 - 0) = Real.pi / 2 + 10 := by norm_num
    have hcl : clampPhi (Real.pi / 2 + 10) = Real.pi := by
      unfold clampPhi
      rw [if_pos (by linarith [Real.pi_lt_four])]
    rw [h1, h2, hcl]
  have hr1 : radiusOf (sphToCart 800 0 Real.pi) = 800 :=
    radiusOf_sphToCart 800 0 Real.pi (by norm_num)
  have hph1 : phiOf (sphToCart 800 0 Real.pi) = Real.pi :=
    phiOf_sphToCart 800 0 Real.pi (by norm_num) Real.pi_nonneg le_rfl
  have hth1 : thetaOf (sphToCart 800 0 Real.pi) = 0 := by
    unfold thetaOf atan2
    have hzero : (⟨(sphToCart 800 0 Real.pi).z, (sphToCart 800 0 Real.pi).x⟩ : ℂ) = 0 := by
      apply Complex.ext <;> simp [sphToCart, Real.sin_pi]
    rw [hzero, Complex.arg_zero]
  have hstate2 : (orbitControl1 1 1 ⟨0, 0, -100, 0, true, MouseButton.left, false, 0, 0⟩
      (orbitControl1 1 1 ⟨0, 0, 100, 0, true, MouseButton.left, false, 0, 0⟩
        ⟨⟨0, 0, 800⟩, ⟨0, 0, 0⟩⟩).state).state =
      ⟨vadd (sphToCart 800 0 0.001) ⟨0, 0, 0⟩, ⟨0, 0, 0⟩⟩ := by
    rw [hstate1]
    unfold orbitControl1
    rw [if_neg (by simp), if_pos (by simp)]
    unfold rotate1
    simp only [vsub_vadd_cancel]
    rw [hr1, hph1, hth1]
    have h3 : (0 : ℝ) + 0.1 * 1 * (0 - 0) = 0 := by norm_num
    have h4 : Real.pi + 0.1 * 1 * (-100 - 0) = Real.pi - 10 := by ring
    have hcl2 : clampPhi (Real.pi - 10) = 0.001 := by
      unfold clampPhi
      rw [if_neg (by linarith [Real.pi_pos]), if_pos (by linarith [Real.pi_lt_four])]
    rw [h3, h4, hcl2]
  refine ⟨by rw [hv, hph0], ?_, ?_⟩
  · rw [hstate2]
    simp only [vsub_vadd_cancel]
    exact phiOf_sphToCart 800 0 0.001 (by norm_num) (by norm_num)
      (by linarith [Real.pi_gt_three])
  · have : (0.001 : ℝ) < Real.pi / 2 := by linarith [Real.pi_gt_three]
    exact ne_of_lt this

/-- C6 amended: a rotate-mode update by any pointer delta `(dx, dy)`
followed by one with delta `(-dx, -dy)` and the same sensitivities restores
the camera state exactly — and the radius is unaffected by the rotations —
provided the polar angle stays inside the recoverable range: nonzero
radius, initial `phi` positive, and intermediate `phi` strictly inside
`(0, π)` (so the polar clamp never fires and the pole does not erase
`theta`).  No restriction on `theta` is needed: the reconversion is
`2π`-periodic in `theta`, so the wrapped angle derived on the second frame
reproduces the original eye exactly. -/
theorem rotate_reverse_amended (sX sY : ℝ) (inp1 inp2 : Input) (cam : CameraState)
    (hs1 : inp1.shiftDown = false) (hp1 : inp1.mouseIsPressed = true)
    (hs2 : inp2.shiftDown = false) (hp2 : inp2.mouseIsPressed = true)
    (hnx : inp2.mouseX - inp2.pmouseX = -(inp1.mouseX - inp1.pmouseX))
    (hny : inp2.mouseY - inp2.pmouseY = -(inp1.mouseY - inp1.pmouseY))
    (hd : vsub cam.eye cam.center ≠ ⟨0, 0, 0⟩)
    (hphi0 : 0 < phiOf (vsub cam.eye cam.center))
    (hphi1 : 0 < phiOf (vsub cam.eye cam.center) + 0.1 * sY * (inp1.mouseY - inp1.pmouseY))
    (hphi2 : phiOf (vsub cam.eye cam.center) + 0.1 * sY * (inp1.mouseY - inp1.pmouseY) <
      Real.pi) :
    (orbitControl1 sX sY inp2 (orbitControl1 sX sY inp1 cam).state).state = cam ∧
    radiusOf (vsub (orbitControl1 sX sY inp1 cam).state.eye
        (orbitControl1 sX sY inp1 cam).state.center) =
      radiusOf (vsub cam.eye cam.center) := by
  have hr0 : 0 < radiusOf (vsub cam.eye cam.center) := radiusOf_pos hd
  have hstate1 : (orbitControl1 sX sY inp1 cam).state =
      ⟨vadd (sphToCart (radiusOf (vsub cam.eye cam.center))
          (thetaOf (vsub cam.eye cam.center) + 0.1 * sX * (inp1.mouseX - inp1.pmouseX))
          (phiOf (vsub cam.eye cam.center) + 0.1 * sY * (inp1.mouseY - inp1.pmouseY)))
        cam.center, cam.center⟩ := by
    unfold orbitControl1
    rw [if_neg (by simp [hs1]), if_pos (by simp [hp1])]
    unfold rotate1
    simp only
    rw [clampPhi_eq_self hphi1 hphi2.le]
  have hsin : 0 < Real.sin (phiOf (vsub cam.eye cam.center) +
      0.1 * sY * (inp1.mouseY - inp1.pmouseY)) * radiusOf (vsub cam.eye cam.center) :=
    mul_pos (Real.sin_pos_of_pos_of_lt_pi hphi1 hphi2) hr0
  constructor
  · rw [hstate1]
    unfold orbitControl1
    rw [if_neg (by simp [hs2]), if_pos (by simp [hp2])]
    unfold rotate1
    simp only [vsub_vadd_cancel]
    obtain ⟨k, hk⟩ := thetaOf_sphToCart_mod (radiusOf (vsub cam.eye cam.center))
      (thetaOf (vsub cam.eye cam.center) + 0.1 * sX * (inp1.mouseX - inp1.pmouseX))
      (phiOf (vsub cam.eye cam.center) + 0.1 * sY * (inp1.mouseY - inp1.pmouseY)) hsin
    rw [radiusOf_sphToCart _ _ _ hr0.le, hk,
      phiOf_sphToCart _ _ _ hr0 hphi1.le hphi2.le]
    have e1 : thetaOf (vsub cam.eye cam.center) + 0.1 * sX * (inp1.mouseX - inp1.pmouseX) -
        k * (2 * Real.pi) + 0.1 * sX * (inp2.mouseX - inp2.pmouseX) =
        thetaOf (vsub cam.eye cam.center) - k * (2 * Real.pi) := by
      rw [hnx]; ring
    have e2 : phiOf (vsub cam.eye cam.center) + 0.1 * sY * (inp1.mouseY - inp1.pmouseY) +
        0.1 * sY * (inp2.mouseY - inp2.pmouseY) = phiOf (vsub cam.eye cam.center) := by
      rw [hny]; ring
    rw [e1, e2, clampPhi_eq_self hphi0 (phiOf_le_pi _),
      sphToCart_theta_sub_int_mul_two_pi, sph_roundtrip _ hd]
    ext <;> simp [vadd, vsub]
  · rw [hstate1]
    simp only [vsub_vadd_cancel]
    rw [radiusOf_sphToCart _ _ _ hr0.le]

/-- Witness for C6 amended: a reversible rotation from `eye = (0,0,800)`
about the origin with pointer delta `(100, 0)` — the intermediate `theta`
is 10, far outside `(-π, π]`, exercising the `2π`-periodic wrap. -/
theorem rotate_reverse_amended_witness :
    (orbitControl1 1 1 ⟨-100, 0, 0, 0, true, MouseButton.left, false, 0, 0⟩
      (orbitControl1 1 1 ⟨100, 0, 0, 0, true, MouseButton.left, false, 0, 0⟩
        ⟨⟨0, 0, 800⟩, ⟨0, 0, 0⟩⟩).state).state = ⟨⟨0, 0, 800⟩, ⟨0, 0, 0⟩⟩ := by
  have hv : vsub (⟨⟨0, 0, 800⟩, ⟨0, 0, 0⟩⟩ : CameraState).eye
      (⟨⟨0, 0, 800⟩, ⟨0, 0, 0⟩⟩ : CameraState).center = ⟨0, 0, 800⟩ := by
    ext <;> simp [vsub]
  have hph : phiOf (vsub (⟨⟨0, 0, 800⟩, ⟨0, 0, 0⟩⟩ : CameraState).eye
      (⟨⟨0, 0, 800⟩, ⟨0, 0, 0⟩⟩ : CameraState).center) = Real.pi / 2 := by
    rw [hv]; exact phiOf_00z (by norm_num)
  exact (rotate_reverse_amended 1 1 _ _ _ rfl rfl rfl rfl (by norm_num) (by norm_num)
    (by rw [hv]; simp)
    (by rw [hph]; linarith [Real.pi_pos])
    (by rw [hph]; ring_nf; linarith [Real.pi_pos])
    (by rw [hph]; ring_nf; linarith [Real.pi_gt_three])).1

lemma jsSqrt_some {a : ℝ} (h : 0 ≤ a) : jsSqrt (some a) = some (Real.sqrt a) := by
  show (if a < 0 then none else some (Real.sqrt a)) = some (Real.sqrt a)
  rw [if_neg (not_lt.mpr h)]

lemma jsDiv_some {a b : ℝ} (h : b ≠ 0) : jsDiv (some a) (some b) = some (a / b) := by
  show (if b = 0 then none else some (a / b)) = some (a / b)
  rw [if_neg h]

lemma jsAcos_some {a : ℝ} (h1 : -1 ≤ a) (h2 : a ≤ 1) :
    jsAcos (some a) = some (Real.arccos a) := by
  show (if a < -1 ∨ 1 < a then none else some (Real.arccos a)) = some (Real.arccos a)
  rw [if_neg (by push_neg; exact ⟨h1, h2⟩)]

/-- C9 counterexample: at `eye = center = (0,0,0)` the rotate branch divides
`0/0`, producing NaN; the NaN passes unchanged through `min`, `max`, `acos`
and the polar clamp (whose comparisons are false on NaN) and reaches every
component of the recomputed eye, so the update hands non-finite values to
the view update instead of clamping them away. -/
theorem rotate_singular_nan :
    rotateJS 1 1 ⟨5, 0, 0, 0, true, MouseButton.left, false, 0, 0⟩
        ⟨⟨0, 0, 0⟩, ⟨0, 0, 0⟩⟩ = (none, none, none) := by
  unfold rotateJS
  norm_num [jsMul, jsAdd, jsSqrt, jsDiv, jsMin, jsMax, jsAcos, jsSin, jsCos, jsAtan2,
    jsClampPhi, Real.sqrt_zero]

/-- C9 amended: the update is total and, for every camera state whose eye
differs from its center, every component of the eye recomputed by the
rotate branch is a finite number — the `acos` clamp and the polar clamp
handle all out-of-range geometry.  Only the singular state `eye = center`
(excluded here, see the counterexample) produces non-finite values. -/
theorem rotate_finite_off_singularity (sX sY : ℝ) (inp : Input) (cam : CameraState)
    (hd : vsub cam.eye cam.center ≠ ⟨0, 0, 0⟩) :
    ∃ ex ey ez : ℝ, rotateJS sX sY inp cam = (some ex, some ey, some ez) := by
  have hS : 0 < (cam.eye.x - cam.center.x) * (cam.eye.x - cam.center.x) +
      (cam.eye.y - cam.center.y) * (cam.eye.y - cam.center.y) +
      (cam.eye.z - cam.center.z) * (cam.eye.z - cam.center.z) := by
    have h1 := radiusOf_pos hd
    unfold radiusOf at h1
    have h2 := Real.sqrt_pos.mp h1
    simpa [vsub] using h2
  have hsq : Real.sqrt ((cam.eye.x - cam.center.x) * (cam.eye.x - cam.center.x) +
      (cam.eye.y - cam.center.y) * (cam.eye.y - cam.center.y) +
      (cam.eye.z - cam.center.z) * (cam.eye.z - cam.center.z)) ≠ 0 :=
    ne_of_gt (Real.sqrt_pos.mpr hS)
  unfold rotateJS
  simp only [jsMul, jsAdd]
  rw [jsSqrt_some hS.le, jsDiv_some hsq]
  simp only [jsMin, jsMax]
  rw [jsAcos_some (le_max_left _ _) (max_le (by norm_num) (min_le_left _ _))]
  simp only [jsAdd, jsClampPhi, jsSin, jsCos, jsMul, jsAtan2]
  exact ⟨_, _, _, rfl⟩

/-- Witness for C9 amended at a concrete non-singular state. -/
theorem rotate_finite_off_singularity_witness :
    ∃ ex ey ez : ℝ, rotateJS 1 1 ⟨5, 0, 0, 0, true, MouseButton.left, false, 0, 0⟩
        ⟨⟨0, 0, 1⟩, ⟨0, 0, 0⟩⟩ = (some ex, some ey, some ez) :=
  rotate_finite_off_singularity 1 1 _ _ (by simp [vsub])

end P5Orbit
